import Mathlib

/-!
Verification of the 1-D FDTD simulation `Task_04.py`.

The script simulates a plane wave propagating through a stack of lossy
dielectric layers with the finite-difference time-domain method and then
derives a reflection-coefficient curve from two field probes.

Arrays of the script are embedded as `List ℝ`; the numpy vectorised
expressions of the time loop become `List.zipWith` combinations, slice
assignments become `List.set` / `take` / `append` / `drop`, and the loop body
becomes the state transformer `stepFDTD`.  The helper module `tools` is not
part of the given sources; the probe recorder it provides is modelled from the
spec where needed (see `Probe.addData`).
-/

namespace Task04

/-- A field probe: a fixed grid index and the two recorded time series.
Modelled from the spec: the class `tools.Probe` is not among the given
source files; per the spec a probe holds a fixed spatial index plus two
append-only time series of E and H samples. -/
structure Probe where
  pos : ℕ
  E : List ℝ
  H : List ℝ

/-- Modelled from the spec: `tools.Probe.addData` is not among the given
source files; per the spec it records `Ez[pos]` and `Hy[pos]`, appending one
entry per time step, never overwriting. -/
noncomputable def Probe.addData (p : Probe) (Ez Hy : List ℝ) : Probe :=
  { pos := p.pos, E := p.E ++ [Ez.getD p.pos 0], H := p.H ++ [Hy.getD p.pos 0] }

/-- The mutable state of the simulation: the medium arrays `eps`, `mu`, the
four update-coefficient arrays, the two field arrays and the probes.  These
are exactly the arrays the time loop of `Task_04.py` reads or writes. -/
structure SimState where
  eps : List ℝ
  mu : List ℝ
  ceze : List ℝ
  cezh : List ℝ
  chyh : List ℝ
  chye : List ℝ
  Ez : List ℝ
  Hy : List ℝ
  probes : List Probe

/-- Line 162, `Hy = chyh[:-1] * Hy + chye[:-1] * (Ez[1:] - Ez[:-1])`:
the bulk magnetic-field update as numpy elementwise arithmetic. -/
noncomputable def hUpdate (chyh chye ez hy : List ℝ) : List ℝ :=
  List.zipWith (· + ·)
    (List.zipWith (· * ·) chyh.dropLast hy)
    (List.zipWith (· * ·) chye.dropLast
      (List.zipWith (· - ·) ez.tail ez.dropLast))

/-- Lines 162-166: the bulk H update followed by the TFSF correction
`Hy[sourcePos - 1] -= Sc / (W0 * mu[sourcePos - 1]) * source.getField(0, q)`. -/
noncomputable def hAfterTfsf (Sc W0 : ℝ) (sourcePos : ℕ) (src : ℝ → ℝ → ℝ)
    (q : ℕ) (s : SimState) : List ℝ :=
  let Hy1 := hUpdate s.chyh s.chye s.Ez s.Hy
  Hy1.set (sourcePos - 1)
    (Hy1.getD (sourcePos - 1) 0 -
      Sc / (W0 * s.mu.getD (sourcePos - 1) 0) * src 0 (q : ℝ))

/-- Lines 169-170, the boundary conditions `Ez[0] = Ez[1]` and
`Ez[-1] = Ez[-2]`, executed in that order. -/
noncomputable def ezBoundary (ez : List ℝ) : List ℝ :=
  let Ez1 := ez.set 0 (ez.getD 1 0)
  Ez1.set (Ez1.length - 1) (Ez1.getD (Ez1.length - 2) 0)

/-- The right-hand side of line 174,
`ceze[1:-1] * Ez[1:-1] + cezh[1:-1] * (Hy[1:] - Hy[:-1])`. -/
noncomputable def eInner (ceze cezh ez hy : List ℝ) : List ℝ :=
  List.zipWith (· + ·)
    (List.zipWith (· * ·) ceze.tail.dropLast ez.tail.dropLast)
    (List.zipWith (· * ·) cezh.tail.dropLast
      (List.zipWith (· - ·) hy.tail hy.dropLast))

/-- Line 174, the slice assignment `Ez[1:-1] = ...`: the first and last cells
keep their values, the interior is replaced by `eInner`. -/
noncomputable def eUpdate (ceze cezh ez hy : List ℝ) : List ℝ :=
  ez.take 1 ++ eInner ceze cezh ez hy ++ ez.drop (ez.length - 1)

/-- One iteration of the time loop of `Task_04.py` (lines 160-183):
H bulk update, TFSF correction on `Hy[sourcePos-1]`, boundary condition
`Ez[0] = Ez[1]`, `Ez[-1] = Ez[-2]`, E bulk update on `Ez[1:-1]`, TFSF
correction on `Ez[sourcePos]`, and probe recording. -/
noncomputable def stepFDTD (Sc W0 : ℝ) (sourcePos : ℕ) (src : ℝ → ℝ → ℝ) (q : ℕ)
    (s : SimState) : SimState :=
  let Hy2 := hAfterTfsf Sc W0 sourcePos src q s
  let Ez2 := ezBoundary s.Ez
  let Ez3 := eUpdate s.ceze s.cezh Ez2 Hy2
  let Ez4 := Ez3.set sourcePos
    (Ez3.getD sourcePos 0 +
      Sc / Real.sqrt (s.eps.getD sourcePos 0 * s.mu.getD sourcePos 0) *
        src (-0.5) ((q : ℝ) + 0.5))
  { s with
    Ez := Ez4
    Hy := Hy2
    probes := s.probes.map (fun p => p.addData Ez4 Hy2) }

/-- `runFDTD n` executes the first `n` iterations `q = 0, 1, ..., n-1` of the
time loop. -/
noncomputable def runFDTD (Sc W0 : ℝ) (sourcePos : ℕ) (src : ℝ → ℝ → ℝ) :
    ℕ → SimState → SimState
  | 0, s => s
  | n + 1, s => stepFDTD Sc W0 sourcePos src n (runFDTD Sc W0 sourcePos src n s)

/-- `GaussianModPlaneWave.getField` of `Task_04.py` (lines 24-30): the plane
wave of a modulated Gaussian signal, evaluated at fractional position `m` and
fractional time `q`. -/
noncomputable def getField (d w Nl Sc eps mu : ℝ) (m q : ℝ) : ℝ :=
  Real.sin (2 * Real.pi / Nl * (q * Sc - m * Real.sqrt (eps * mu))) *
    Real.exp (-(((q - m * Real.sqrt (eps * mu) / Sc) - d) / w) ^ 2)

/-- The source formula as worded by the spec: a sinusoidal carrier at
normalized spatial-time phase, enveloped by a Gaussian centered at delay `d`
with half-width `w`.  Stated separately from `getField` so that the code
formula can be compared against the spec formula. -/
noncomputable def getFieldSpec (d w Nl Sc eps mu : ℝ) (m q : ℝ) : ℝ :=
  Real.sin (2 * Real.pi / Nl * (q * Sc - m * Real.sqrt (eps * mu))) *
    Real.exp (-(((q - m * Real.sqrt (eps * mu) / Sc) - d) / w) ^ 2)

/-! ### The concrete configuration of the script (lines 32-158) -/

/-- Wave impedance of free space, `W0 = 120.0 * numpy.pi`. -/
noncomputable def W0 : ℝ := 120 * Real.pi

/-- Courant number `Sc = 1.0`. -/
noncomputable def Sc : ℝ := 1

/-- Speed of light `c = 3e8`. -/
noncomputable def cLight : ℝ := 3e8

/-- Number of time steps, `maxTime = 1800`. -/
def maxTime : ℕ := 1800

/-- Domain size in metres, `X = 0.5`. -/
noncomputable def X : ℝ := 0.5

/-- Cell size in metres, `dx = 0.5e-3`. -/
noncomputable def dx : ℝ := 0.5e-3

/-- Domain size in cells, `maxSize = int(X / dx) = 1000`. -/
def maxSize : ℕ := 1000

/-- Time step, `dt = Sc * dx / c`. -/
noncomputable def dt : ℝ := Sc * dx / cLight

/-- Source position in cells, `sourcePos = 100`. -/
def sourcePos : ℕ := 100

/-- Probe positions, `probesPos = [75, 125]`. -/
def probesPos : List ℕ := [75, 125]

/-- Permittivity of the first dielectric layer, `eps1 = 3.5`. -/
noncomputable def eps1 : ℝ := 3.5

/-- Thickness of the first layer in metres, `d1 = 0.01`. -/
noncomputable def d1 : ℝ := 0.01

/-- `layer_1 = int(maxSize / 2) + int(d1 / dx) = 500 + 20`. -/
def layer_1 : ℕ := maxSize / 2 + 20

/-- Permittivity of the second dielectric layer, `eps2 = 4.8`. -/
noncomputable def eps2 : ℝ := 4.8

/-- Thickness of the second layer in metres, `d2 = 0.03`. -/
noncomputable def d2 : ℝ := 0.03

/-- `layer_2 = layer_1 + int(d2 / dx) = layer_1 + 60`. -/
def layer_2 : ℕ := layer_1 + 60

/-- Permittivity of the third dielectric layer, `eps3 = 6.5`. -/
noncomputable def eps3 : ℝ := 6.5

/-- The permittivity array after the three slice assignments
`eps[int(maxSize/2):layer_1] = eps1`, `eps[layer_1:layer_2] = eps2`,
`eps[layer_2:] = eps3` on `numpy.ones(maxSize)`, as a function of the index
(the assigned ranges are pairwise disjoint). -/
noncomputable def epsFun (i : ℕ) : ℝ :=
  if maxSize / 2 ≤ i ∧ i < layer_1 then eps1
  else if layer_1 ≤ i ∧ i < layer_2 then eps2
  else if layer_2 ≤ i then eps3
  else 1

/-- `eps` array of the script. -/
noncomputable def epsList : List ℝ := List.ofFn (fun i : Fin maxSize => epsFun i)

/-- `mu = numpy.ones(maxSize - 1)`. -/
noncomputable def muList : List ℝ := List.replicate (maxSize - 1) 1

/-- Start of the left absorbing region, `layer_loss_x_left = 50`. -/
def layer_loss_x_left : ℕ := 50

/-- Start of the right absorbing region, `layer_loss_x_right = 950`. -/
def layer_loss_x_right : ℕ := 950

/-- The loss array after `loss[layer_loss_x_right:] = 0.02` and
`loss[:layer_loss_x_left] = 0.02` on `numpy.zeros(maxSize)`, as a function of
the index. -/
noncomputable def lossFun (i : ℕ) : ℝ :=
  if i < layer_loss_x_left then 0.02
  else if layer_loss_x_right ≤ i then 0.02
  else 0

/-- `loss` array of the script. -/
noncomputable def lossList : List ℝ := List.ofFn (fun i : Fin maxSize => lossFun i)

/-- `ceze = (1 - loss) / (1 + loss)` before the edge smoothing. -/
noncomputable def cezeBase : List ℝ := lossList.map (fun l => (1 - l) / (1 + l))

/-- `cezh = W0 / (eps * (1 + loss))` before the edge smoothing. -/
noncomputable def cezhBase : List ℝ :=
  List.zipWith (fun e l => W0 / (e * (1 + l))) epsList lossList

/-- `chyh = (1 - loss) / (1 + loss)`; never smoothed by the script. -/
noncomputable def chyhList : List ℝ := lossList.map (fun l => (1 - l) / (1 + l))

/-- `chye = 1 / (W0 * (1 + loss))`; never smoothed by the script. -/
noncomputable def chyeList : List ℝ := lossList.map (fun l => 1 / (W0 * (1 + l)))

/-- `ceze` after the smoothing assignment at `layer_loss_x_left`. -/
noncomputable def cezeSm1 : List ℝ :=
  cezeBase.set layer_loss_x_left
    ((cezeBase.getD (layer_loss_x_left - 1) 0 +
      cezeBase.getD (layer_loss_x_left + 1) 0) / 2)

/-- `ceze` after both smoothing assignments (lines 107-113). -/
noncomputable def cezeList : List ℝ :=
  cezeSm1.set layer_loss_x_right
    ((cezeSm1.getD (layer_loss_x_right - 1) 0 +
      cezeSm1.getD (layer_loss_x_right + 1) 0) / 2)

/-- `cezh` after the smoothing assignment at `layer_loss_x_left`. -/
noncomputable def cezhSm1 : List ℝ :=
  cezhBase.set layer_loss_x_left
    ((cezhBase.getD (layer_loss_x_left - 1) 0 +
      cezhBase.getD (layer_loss_x_left + 1) 0) / 2)

/-- `cezh` after both smoothing assignments (lines 109-115). -/
noncomputable def cezhList : List ℝ :=
  cezhSm1.set layer_loss_x_right
    ((cezhSm1.getD (layer_loss_x_right - 1) 0 +
      cezhSm1.getD (layer_loss_x_right + 1) 0) / 2)

/-- `Ez = numpy.zeros(maxSize)`. -/
noncomputable def Ez0 : List ℝ := List.replicate maxSize 0

/-- `Hy = numpy.zeros(maxSize - 1)`. -/
noncomputable def Hy0 : List ℝ := List.replicate (maxSize - 1) 0

/-- The freshly constructed probes: empty series at positions 75 and 125. -/
def probes0 : List Probe := probesPos.map (fun p => { pos := p, E := [], H := [] })

/-- The complete state right before the time loop starts. -/
noncomputable def state0 : SimState :=
  { eps := epsList, mu := muList, ceze := cezeList, cezh := cezhList,
    chyh := chyhList, chye := chyeList, Ez := Ez0, Hy := Hy0, probes := probes0 }

/-- `Fmin = 5e9`. -/
noncomputable def Fmin : ℝ := 5e9

/-- `Fmax = 30e9`. -/
noncomputable def Fmax : ℝ := 30e9

/-- `A0 = 100`. -/
noncomputable def A0 : ℝ := 100

/-- `Amax = 100`. -/
noncomputable def Amax : ℝ := 100

/-- `f0 = (Fmax + Fmin) / 2`. -/
noncomputable def f0 : ℝ := (Fmax + Fmin) / 2

/-- `DeltaF = Fmax - Fmin`. -/
noncomputable def DeltaF : ℝ := Fmax - Fmin

/-- `wg = 2 * sqrt(log(Amax)) / (pi * DeltaF)` before division by `dt`. -/
noncomputable def wg0 : ℝ := 2 * Real.sqrt (Real.log Amax) / (Real.pi * DeltaF)

/-- `dg = wg * sqrt(log(A0))` before division by `dt`. -/
noncomputable def dg0 : ℝ := wg0 * Real.sqrt (Real.log A0)

/-- `wg = wg / dt`. -/
noncomputable def wg : ℝ := wg0 / dt

/-- `dg = dg / dt`. -/
noncomputable def dg : ℝ := dg0 / dt

/-- `N1 = Sc * (1 / f0) / dt`. -/
noncomputable def N1 : ℝ := Sc * (1 / f0) / dt

/-- The source of the script:
`GaussianModPlaneWave(dg, wg, N1, eps[sourcePos], mu[sourcePos])` with the
default Courant number `Sc = 1.0` of the constructor. -/
noncomputable def sourceField (m q : ℝ) : ℝ :=
  getField dg wg N1 1 (epsList.getD sourcePos 0) (muList.getD sourcePos 0) m q

/-- The state after `n` iterations of the main time loop of the script. -/
noncomputable def runMain (n : ℕ) : SimState :=
  runFDTD Sc W0 sourcePos sourceField n state0

/-! ### The spectral post-processing (lines 199-231) -/

/-- Size of the Fourier transform, `size = 2 ** 16`. -/
def sizeFFT : ℕ := 2 ^ 16

/-- Hardcoded truncation window of the incident-field proxy: the literal
`300` of the slice assignment `FallField[:300] = probes[1].E[:300]`. -/
def truncWindow : ℕ := 300

/-- `FallField = numpy.zeros(maxTime); FallField[:300] = probes[1].E[:300]`:
the incident-proxy series built from the E series of the probe at cell 125. -/
noncomputable def FallField (E1 : List ℝ) : List ℝ :=
  List.ofFn (fun i : Fin maxTime =>
    if (i : ℕ) < truncWindow then E1.getD i 0 else 0)

/-- Magnitude of one bin of the discrete Fourier transform of `x` zero-padded
to length `n` (the semantics of `abs(numpy.fft.fft(x, n))` at index `k`):
entries of `x` beyond its length read as `0` through `getD`. -/
noncomputable def dftMag (x : List ℝ) (n k : ℕ) : ℝ :=
  Complex.abs (∑ j ∈ Finset.range n, (x.getD j 0 : ℂ) *
    Complex.exp (-(2 * Real.pi * Complex.I * (k : ℂ) * (j : ℂ)) / (n : ℂ)))

/-- Index mapping of `numpy.fft.fftshift` on an array of length `n`:
output bin `k` holds input bin `(k + n / 2) % n`. -/
def fftshiftIdx (n k : ℕ) : ℕ := (k + n / 2) % n

/-- `FallSpectr = fftshift(abs(fft(FallField, size)))` at bin `k`. -/
noncomputable def FallSpectr (E1 : List ℝ) (k : ℕ) : ℝ :=
  dftMag (FallField E1) sizeFFT (fftshiftIdx sizeFFT k)

/-- `ScatteredSpectr = fftshift(abs(fft(probes[0].E, size)))` at bin `k`;
the full E series of the probe at cell 75 is transformed, untruncated. -/
noncomputable def ScatteredSpectr (E0 : List ℝ) (k : ℕ) : ℝ :=
  dftMag E0 sizeFFT (fftshiftIdx sizeFFT k)

/-- Frequency resolution `df = 1 / (size * dt)`. -/
noncomputable def df : ℝ := 1 / (sizeFFT * dt)

/-- The frequency axis `f = numpy.arange(-(size/2)*df, (size/2)*df, df)`:
bin `k` sits at the start value plus `k` steps. -/
noncomputable def fAxis (k : ℕ) : ℝ := -((sizeFFT : ℝ) / 2) * df + (k : ℝ) * df

/-- The reflection-coefficient magnitude the script plots:
`ScatteredSpectr / FallSpectr`, elementwise. -/
noncomputable def reflCoeff (E0 E1 : List ℝ) (k : ℕ) : ℝ :=
  ScatteredSpectr E0 k / FallSpectr E1 k

/-- The configuration parameters of the run (section 6 of the spec): domain
size, cell size, Courant number, total step count, source position, probe
positions, layer description, absorbing-region extents and loss value, the
passband and envelope inputs, and the transform size. -/
noncomputable def configParams : List ℝ :=
  [X, dx, Sc, (maxTime : ℝ), (maxSize : ℝ), (sourcePos : ℝ), 75, 125,
   eps1, d1, eps2, d2, eps3, (layer_1 : ℝ), (layer_2 : ℝ),
   (layer_loss_x_left : ℝ), (layer_loss_x_right : ℝ), 0.02,
   Fmin, Fmax, A0, Amax, (sizeFFT : ℝ)]

/-- All entries of the list are zero; reads through `getD` with default `0`,
so out-of-range indices are covered trivially. -/
def allZero (l : List ℝ) : Prop := ∀ i : ℕ, l.getD i 0 = 0

/-- Well-formedness of a simulation state: the array lengths fit a grid of
`N` electric cells and `N - 1` magnetic cells, and the source plane `sp` is
an interior index. -/
def GoodState (s : SimState) (N sp : ℕ) : Prop :=
  s.Ez.length = N ∧ s.Hy.length = N - 1 ∧ s.ceze.length = N ∧
    s.cezh.length = N ∧ s.chyh.length = N ∧ s.chye.length = N ∧
    3 ≤ N ∧ 1 ≤ sp ∧ sp ≤ N - 2

/-- The bulk magnetic-field update of cell `i`:
`chyh[i] * Hy[i] + chye[i] * (Ez[i+1] - Ez[i])`, all values read from the
state as it was before the step. -/
noncomputable def hBulk (s : SimState) (i : ℕ) : ℝ :=
  s.chyh.getD i 0 * s.Hy.getD i 0 +
    s.chye.getD i 0 * (s.Ez.getD (i + 1) 0 - s.Ez.getD i 0)

/-- The bulk electric-field update of interior cell `i`:
`ceze[i] * Ez[i] + cezh[i] * (hy[i] - hy[i-1])`, where `Ez` is read from the
state before the step and `hy` is the already updated magnetic field. -/
noncomputable def eBulk (s : SimState) (hy : List ℝ) (i : ℕ) : ℝ :=
  s.ceze.getD i 0 * s.Ez.getD i 0 +
    s.cezh.getD i 0 * (hy.getD i 0 - hy.getD (i - 1) 0)

/-! ### A misconfigured run for the error-handling claim: the second
dielectric layer is asked to end at cell 2000, so the layer range
`[layer_1, 2000)` falls outside the grid `[0, 1000)`.  The layer bounds feed
only slice assignments, which numpy silently clamps to the valid index
range; the loss arrays and the loss-edge smoothing (at the unchanged,
in-range cells 50 and 950) are untouched, so the script builds its state and
runs the time loop without any error.  The definitions below mirror its
construction pipeline on that configuration. -/

/-- An out-of-range end for the second dielectric layer, `layer_2 = 2000`
(reachable from the thickness input, for instance `d2 = 0.74`). -/
def badLayer2 : ℕ := 2000

/-- The permittivity array the script builds when `layer_2 = 2000`: the three
slice assignments `eps[500:520] = eps1`, `eps[520:2000] = eps2`,
`eps[2000:] = eps3` on `numpy.ones(1000)`, written with the later assignment
winning on its range; indices `≥ 1000` are silently never written (numpy
slice clamping), so this function is only read at `i < 1000`. -/
noncomputable def epsBadFun (i : ℕ) : ℝ :=
  if badLayer2 ≤ i then eps3
  else if layer_1 ≤ i ∧ i < badLayer2 then eps2
  else if maxSize / 2 ≤ i ∧ i < layer_1 then eps1
  else 1

/-- `eps` array of the misconfigured run. -/
noncomputable def epsBadList : List ℝ :=
  List.ofFn (fun i : Fin maxSize => epsBadFun i)

/-- `cezh = W0 / (eps * (1 + loss))` of the misconfigured run before
smoothing; only `eps` differs from the well-configured run. -/
noncomputable def cezhBadBase : List ℝ :=
  List.zipWith (fun e l => W0 / (e * (1 + l))) epsBadList lossList

/-- `cezh` of the misconfigured run after the smoothing at
`layer_loss_x_left`: the loss edges are unchanged at the in-range cells 50
and 950, so the smoothing lines execute normally. -/
noncomputable def cezhBadSm1 : List ℝ :=
  cezhBadBase.set layer_loss_x_left
    ((cezhBadBase.getD (layer_loss_x_left - 1) 0 +
      cezhBadBase.getD (layer_loss_x_left + 1) 0) / 2)

/-- `cezh` of the misconfigured run after both smoothings. -/
noncomputable def cezhBadList : List ℝ :=
  cezhBadSm1.set layer_loss_x_right
    ((cezhBadSm1.getD (layer_loss_x_right - 1) 0 +
      cezhBadSm1.getD (layer_loss_x_right + 1) 0) / 2)

/-- The source of the misconfigured run:
`GaussianModPlaneWave(dg, wg, N1, eps[sourcePos], mu[sourcePos])`, reading
the bad permittivity array (its value at cell 100 is still 1). -/
noncomputable def sourceFieldBad (m q : ℝ) : ℝ :=
  getField dg wg N1 1 (epsBadList.getD sourcePos 0) (muList.getD sourcePos 0) m q

/-- The state right before the time loop on the misconfigured run: `loss`
and everything derived from it alone (`ceze`, `chyh`, `chye`) are identical
to the well-configured run; `eps` and `cezh` come from the bad layer range. -/
noncomputable def stateBad : SimState :=
  { eps := epsBadList, mu := muList, ceze := cezeList, cezh := cezhBadList,
    chyh := chyhList, chye := chyeList, Ez := Ez0, Hy := Hy0, probes := probes0 }

/-- The state after `n` iterations of the time loop on the misconfigured run. -/
noncomputable def runBad (n : ℕ) : SimState :=
  runFDTD Sc W0 sourcePos sourceFieldBad n stateBad

/-- A small concrete well-formed state on a 4-cell grid, used to instantiate
the parametric theorems at a closed input. -/
noncomputable def stateW : SimState :=
  { eps := [1, 1, 1, 1], mu := [1, 1, 1], ceze := [1, 1, 1, 1],
    cezh := [1, 1, 1, 1], chyh := [1, 1, 1, 1], chye := [1, 1, 1, 1],
    Ez := [0, 0, 0, 0], Hy := [0, 0, 0], probes := [] }

/-! ### Access lemmas for `List.getD` -/

theorem getD_zipWith {f : ℝ → ℝ → ℝ} {a b : List ℝ} {i : ℕ}
    (ha : i < a.length) (hb : i < b.length) :
    (List.zipWith f a b).getD i 0 = f (a.getD i 0) (b.getD i 0) := by
  rw [List.getD_eq_getElem _ _ (by rw [List.length_zipWith]; omega),
    List.getElem_zipWith, List.getD_eq_getElem _ _ ha, List.getD_eq_getElem _ _ hb]

theorem getD_tail (l : List ℝ) (i : ℕ) : l.tail.getD i 0 = l.getD (i + 1) 0 := by
  cases l <;> rfl

theorem getD_dropLast {l : List ℝ} {i : ℕ} (h : i + 1 < l.length) :
    l.dropLast.getD i 0 = l.getD i 0 := by
  rw [List.getD_eq_getElem _ _ (by rw [List.length_dropLast]; omega),
    List.getElem_dropLast, List.getD_eq_getElem _ _ (by omega)]

theorem getD_set_self {l : List ℝ} {i : ℕ} (h : i < l.length) (v : ℝ) :
    (l.set i v).getD i 0 = v := by
  rw [List.getD_eq_getElem _ _ (by rw [List.length_set]; omega),
    List.getElem_set_self]

theorem getD_set_ne {l : List ℝ} {i j : ℕ} (h : i ≠ j) (v : ℝ) :
    (l.set i v).getD j 0 = l.getD j 0 := by
  by_cases hj : j < l.length
  · rw [List.getD_eq_getElem _ _ (by rw [List.length_set]; omega),
      List.getElem_set_ne h, List.getD_eq_getElem _ _ hj]
  · rw [List.getD_eq_default _ _ (by rw [List.length_set]; omega),
      List.getD_eq_default _ _ (by omega)]

theorem getD_append_left {a b : List ℝ} {i : ℕ} (h : i < a.length) :
    (a ++ b).getD i 0 = a.getD i 0 := by
  rw [List.getD_eq_getElem _ _ (by rw [List.length_append]; omega),
    List.getD_eq_getElem _ _ h, List.getElem_append, dif_pos h]

theorem getD_append_right {a b : List ℝ} {i : ℕ} (h : a.length ≤ i)
    (h2 : i < a.length + b.length) :
    (a ++ b).getD i 0 = b.getD (i - a.length) 0 := by
  rw [List.getD_eq_getElem _ _ (by rw [List.length_append]; omega),
    List.getD_eq_getElem _ _ (by omega), List.getElem_append,
    dif_neg (by omega)]

theorem getD_take {l : List ℝ} {n i : ℕ} (h1 : i < n) (h2 : i < l.length) :
    (l.take n).getD i 0 = l.getD i 0 := by
  rw [List.getD_eq_getElem _ _ (by rw [List.length_take]; omega),
    List.getElem_take, List.getD_eq_getElem _ _ h2]

theorem getD_drop {l : List ℝ} {n i : ℕ} (h : n + i < l.length) :
    (l.drop n).getD i 0 = l.getD (n + i) 0 := by
  rw [List.getD_eq_getElem _ _ (by rw [List.length_drop]; omega),
    List.getElem_drop, List.getD_eq_getElem _ _ h]

theorem getD_map {f : ℝ → ℝ} {l : List ℝ} {i : ℕ} (h : i < l.length) :
    (l.map f).getD i 0 = f (l.getD i 0) := by
  rw [List.getD_eq_getElem _ _ (by rw [List.length_map]; omega),
    List.getElem_map, List.getD_eq_getElem _ _ h]

theorem getD_ofFn {n : ℕ} {f : Fin n → ℝ} {i : ℕ} (h : i < n) :
    (List.ofFn f).getD i 0 = f ⟨i, h⟩ := by
  rw [List.getD_eq_getElem _ _ (by rw [List.length_ofFn]; omega),
    List.getElem_ofFn]

theorem getD_replicate {n : ℕ} {a : ℝ} {i : ℕ} (h : i < n) :
    (List.replicate n a).getD i 0 = a := by
  rw [List.getD_eq_getElem _ _ (by rw [List.length_replicate]; omega),
    List.getElem_replicate]

theorem getD_replicate_zero (n i : ℕ) :
    (List.replicate n (0 : ℝ)).getD i 0 = 0 := by
  by_cases h : i < n
  · exact getD_replicate h
  · exact List.getD_eq_default _ _ (by rw [List.length_replicate]; omega)

/-! ### Characterisation of the sub-updates of one time step -/

theorem hUpdate_length {N : ℕ} {c₁ c₂ e h : List ℝ} (h1 : c₁.length = N)
    (h2 : c₂.length = N) (h3 : e.length = N) (h4 : h.length = N - 1) :
    (hUpdate c₁ c₂ e h).length = N - 1 := by
  simp only [hUpdate, List.length_zipWith, List.length_dropLast,
    List.length_tail, h1, h2, h3, h4]
  omega

theorem hUpdate_getD {c₁ c₂ e h : List ℝ} {i : ℕ} (h1 : i + 1 < c₁.length)
    (h2 : i < h.length) (h3 : i + 1 < c₂.length) (h4 : i + 1 < e.length) :
    (hUpdate c₁ c₂ e h).getD i 0 =
      c₁.getD i 0 * h.getD i 0 + c₂.getD i 0 * (e.getD (i + 1) 0 - e.getD i 0) := by
  unfold hUpdate
  rw [getD_zipWith
      (by simp only [List.length_zipWith, List.length_dropLast]; omega)
      (by simp only [List.length_zipWith, List.length_dropLast,
        List.length_tail]; omega)]
  rw [getD_zipWith (by simp only [List.length_dropLast]; omega) (by omega)]
  rw [getD_zipWith (by simp only [List.length_dropLast]; omega)
      (by simp only [List.length_zipWith, List.length_tail,
        List.length_dropLast]; omega)]
  rw [getD_zipWith (by simp only [List.length_tail]; omega)
      (by simp only [List.length_dropLast]; omega)]
  rw [getD_dropLast h1, getD_dropLast h3, getD_tail, getD_dropLast h4]

theorem hAfterTfsf_length {Sc W0 : ℝ} {sp : ℕ} {src : ℝ → ℝ → ℝ} {q N : ℕ}
    {s : SimState} (h1 : s.chyh.length = N) (h2 : s.chye.length = N)
    (h3 : s.Ez.length = N) (h4 : s.Hy.length = N - 1) :
    (hAfterTfsf Sc W0 sp src q s).length = N - 1 := by
  simp only [hAfterTfsf, List.length_set]
  exact hUpdate_length h1 h2 h3 h4

theorem hAfterTfsf_getD {Sc W0 : ℝ} {sp : ℕ} {src : ℝ → ℝ → ℝ} {q : ℕ}
    {s : SimState} {N : ℕ} (h1 : s.chyh.length = N) (h2 : s.chye.length = N)
    (h3 : s.Ez.length = N) (h4 : s.Hy.length = N - 1)
    {i : ℕ} (hi : i < N - 1) :
    (hAfterTfsf Sc W0 sp src q s).getD i 0 =
      if i = sp - 1 then
        hBulk s i - Sc / (W0 * s.mu.getD (sp - 1) 0) * src 0 (q : ℝ)
      else hBulk s i := by
  have hlen : (hUpdate s.chyh s.chye s.Ez s.Hy).length = N - 1 :=
    hUpdate_length h1 h2 h3 h4
  have hb : ∀ j, j < N - 1 → (hUpdate s.chyh s.chye s.Ez s.Hy).getD j 0 = hBulk s j := by
    intro j hj
    rw [hUpdate_getD (by omega) (by omega) (by omega) (by omega), hBulk]
  simp only [hAfterTfsf]
  by_cases hsp : i = sp - 1
  · subst hsp
    rw [if_pos rfl, getD_set_self (by omega), hb _ hi]
  · rw [if_neg hsp, getD_set_ne (fun hh => hsp hh.symm), hb _ hi]

theorem ezBoundary_length (e : List ℝ) : (ezBoundary e).length = e.length := by
  simp [ezBoundary]

theorem ezBoundary_getD_zero {e : List ℝ} (h : 3 ≤ e.length) :
    (ezBoundary e).getD 0 0 = e.getD 1 0 := by
  simp only [ezBoundary, List.length_set]
  rw [getD_set_ne (by omega), getD_set_self (by omega)]

theorem ezBoundary_getD_last {e : List ℝ} {N : ℕ} (hl : e.length = N)
    (h : 3 ≤ N) :
    (ezBoundary e).getD (N - 1) 0 = e.getD (N - 2) 0 := by
  simp only [ezBoundary, List.length_set, hl]
  rw [getD_set_self (by simp only [List.length_set, hl]; omega),
    getD_set_ne (by omega)]

theorem ezBoundary_getD_mid {e : List ℝ} {N i : ℕ} (hl : e.length = N)
    (h1 : 1 ≤ i) (h2 : i ≤ N - 2) (h3 : 3 ≤ N) :
    (ezBoundary e).getD i 0 = e.getD i 0 := by
  simp only [ezBoundary, List.length_set, hl]
  rw [getD_set_ne (by omega), getD_set_ne (by omega)]

theorem eInner_length {N : ℕ} {c₁ c₂ e h : List ℝ} (h1 : c₁.length = N)
    (h2 : c₂.length = N) (h3 : e.length = N) (h4 : h.length = N - 1) :
    (eInner c₁ c₂ e h).length = N - 2 := by
  simp only [eInner, List.length_zipWith, List.length_dropLast,
    List.length_tail, h1, h2, h3, h4]
  omega

theorem eInner_getD {c₁ c₂ e h : List ℝ} {j : ℕ} (h1 : j + 2 < c₁.length)
    (h2 : j + 2 < c₂.length) (h3 : j + 2 < e.length) (h4 : j + 1 < h.length) :
    (eInner c₁ c₂ e h).getD j 0 =
      c₁.getD (j + 1) 0 * e.getD (j + 1) 0 +
        c₂.getD (j + 1) 0 * (h.getD (j + 1) 0 - h.getD j 0) := by
  unfold eInner
  rw [getD_zipWith
      (by simp only [List.length_zipWith, List.length_dropLast,
        List.length_tail]; omega)
      (by simp only [List.length_zipWith, List.length_dropLast,
        List.length_tail]; omega)]
  rw [getD_zipWith
      (by simp only [List.length_dropLast, List.length_tail]; omega)
      (by simp only [List.length_dropLast, List.length_tail]; omega)]
  rw [getD_zipWith
      (by simp only [List.length_dropLast, List.length_tail]; omega)
      (by simp only [List.length_zipWith, List.length_dropLast,
        List.length_tail]; omega)]
  rw [getD_zipWith (by simp only [List.length_tail]; omega)
      (by simp only [List.length_dropLast]; omega)]
  rw [getD_dropLast (by simp only [List.length_tail]; omega), getD_tail,
    getD_dropLast (by simp only [List.length_tail]; omega), getD_tail,
    getD_dropLast (by simp only [List.length_tail]; omega), getD_tail,
    getD_tail, getD_dropLast h4]

theorem eUpdate_length {N : ℕ} {c₁ c₂ e h : List ℝ} (h1 : c₁.length = N)
    (h2 : c₂.length = N) (h3 : e.length = N) (h4 : h.length = N - 1)
    (hN : 3 ≤ N) :
    (eUpdate c₁ c₂ e h).length = N := by
  simp only [eUpdate, List.length_append, List.length_take, List.length_drop,
    eInner_length h1 h2 h3 h4, h3]
  omega

theorem eUpdate_getD_zero {N : ℕ} {c₁ c₂ e h : List ℝ} (h3 : e.length = N)
    (hN : 3 ≤ N) :
    (eUpdate c₁ c₂ e h).getD 0 0 = e.getD 0 0 := by
  unfold eUpdate
  rw [getD_append_left (by simp only [List.length_append, List.length_take, h3]; omega),
    getD_append_left (by simp only [List.length_take, h3]; omega),
    getD_take (by omega) (by omega)]

theorem eUpdate_getD_last {N : ℕ} {c₁ c₂ e h : List ℝ} (h1 : c₁.length = N)
    (h2 : c₂.length = N) (h3 : e.length = N) (h4 : h.length = N - 1)
    (hN : 3 ≤ N) :
    (eUpdate c₁ c₂ e h).getD (N - 1) 0 = e.getD (N - 1) 0 := by
  unfold eUpdate
  rw [getD_append_right
      (by simp only [List.length_append, List.length_take,
        eInner_length h1 h2 h3 h4, h3]; omega)
      (by simp only [List.length_append, List.length_take, List.length_drop,
        eInner_length h1 h2 h3 h4, h3]; omega)]
  rw [getD_drop (by simp only [List.length_append, List.length_take,
    eInner_length h1 h2 h3 h4, h3]; omega)]
  have : e.length - 1 +
      (N - 1 - (e.take 1 ++ eInner c₁ c₂ e h).length) = N - 1 := by
    simp only [List.length_append, List.length_take,
      eInner_length h1 h2 h3 h4, h3]
    omega
  rw [this]

theorem eUpdate_getD_mid {N : ℕ} {c₁ c₂ e h : List ℝ} (h1 : c₁.length = N)
    (h2 : c₂.length = N) (h3 : e.length = N) (h4 : h.length = N - 1)
    (hN : 3 ≤ N) {i : ℕ} (h5 : 1 ≤ i) (h6 : i ≤ N - 2) :
    (eUpdate c₁ c₂ e h).getD i 0 =
      c₁.getD i 0 * e.getD i 0 + c₂.getD i 0 * (h.getD i 0 - h.getD (i - 1) 0) := by
  unfold eUpdate
  rw [getD_append_left
      (by simp only [List.length_append, List.length_take,
        eInner_length h1 h2 h3 h4, h3]; omega)]
  rw [getD_append_right (by simp only [List.length_take, h3]; omega)
      (by simp only [List.length_take, eInner_length h1 h2 h3 h4, h3]; omega)]
  have ht : i - (e.take 1).length = i - 1 := by
    simp only [List.length_take, h3]
    omega
  rw [ht, eInner_getD (by omega) (by omega) (by omega) (by omega)]
  have hi1 : i - 1 + 1 = i := by omega
  rw [hi1]

/-! ### One full step of the loop -/

theorem stepFDTD_Hy_eq {Sc W0 : ℝ} {sp : ℕ} {src : ℝ → ℝ → ℝ} {q : ℕ}
    {s : SimState} :
    (stepFDTD Sc W0 sp src q s).Hy = hAfterTfsf Sc W0 sp src q s := rfl

theorem stepFDTD_Ez_eq {Sc W0 : ℝ} {sp : ℕ} {src : ℝ → ℝ → ℝ} {q : ℕ}
    {s : SimState} :
    (stepFDTD Sc W0 sp src q s).Ez =
      (eUpdate s.ceze s.cezh (ezBoundary s.Ez) (hAfterTfsf Sc W0 sp src q s)).set sp
        ((eUpdate s.ceze s.cezh (ezBoundary s.Ez)
            (hAfterTfsf Sc W0 sp src q s)).getD sp 0 +
          Sc / Real.sqrt (s.eps.getD sp 0 * s.mu.getD sp 0) *
            src (-0.5) ((q : ℝ) + 0.5)) := rfl

theorem stepFDTD_probes_eq {Sc W0 : ℝ} {sp : ℕ} {src : ℝ → ℝ → ℝ} {q : ℕ}
    {s : SimState} :
    (stepFDTD Sc W0 sp src q s).probes =
      s.probes.map (fun p =>
        p.addData (stepFDTD Sc W0 sp src q s).Ez (stepFDTD Sc W0 sp src q s).Hy) := rfl

theorem stepFDTD_eps_eq {Sc W0 : ℝ} {sp : ℕ} {src : ℝ → ℝ → ℝ} {q : ℕ}
    {s : SimState} : (stepFDTD Sc W0 sp src q s).eps = s.eps := rfl

theorem stepFDTD_mu_eq {Sc W0 : ℝ} {sp : ℕ} {src : ℝ → ℝ → ℝ} {q : ℕ}
    {s : SimState} : (stepFDTD Sc W0 sp src q s).mu = s.mu := rfl

theorem stepFDTD_ceze_eq {Sc W0 : ℝ} {sp : ℕ} {src : ℝ → ℝ → ℝ} {q : ℕ}
    {s : SimState} : (stepFDTD Sc W0 sp src q s).ceze = s.ceze := rfl

theorem stepFDTD_cezh_eq {Sc W0 : ℝ} {sp : ℕ} {src : ℝ → ℝ → ℝ} {q : ℕ}
    {s : SimState} : (stepFDTD Sc W0 sp src q s).cezh = s.cezh := rfl

theorem stepFDTD_chyh_eq {Sc W0 : ℝ} {sp : ℕ} {src : ℝ → ℝ → ℝ} {q : ℕ}
    {s : SimState} : (stepFDTD Sc W0 sp src q s).chyh = s.chyh := rfl

theorem stepFDTD_chye_eq {Sc W0 : ℝ} {sp : ℕ} {src : ℝ → ℝ → ℝ} {q : ℕ}
    {s : SimState} : (stepFDTD Sc W0 sp src q s).chye = s.chye := rfl

theorem stepFDTD_Hy_length {Sc W0 : ℝ} {sp : ℕ} {src : ℝ → ℝ → ℝ} {q : ℕ}
    {s : SimState} {N : ℕ} (hs : GoodState s N sp) :
    (stepFDTD Sc W0 sp src q s).Hy.length = N - 1 := by
  obtain ⟨hEz, hHy, hc1, hc2, hc3, hc4, hN, hp1, hp2⟩ := hs
  rw [stepFDTD_Hy_eq]
  exact hAfterTfsf_length hc3 hc4 hEz hHy

theorem stepFDTD_Ez_length {Sc W0 : ℝ} {sp : ℕ} {src : ℝ → ℝ → ℝ} {q : ℕ}
    {s : SimState} {N : ℕ} (hs : GoodState s N sp) :
    (stepFDTD Sc W0 sp src q s).Ez.length = N := by
  obtain ⟨hEz, hHy, hc1, hc2, hc3, hc4, hN, hp1, hp2⟩ := hs
  rw [stepFDTD_Ez_eq, List.length_set]
  exact eUpdate_length hc1 hc2 (by rw [ezBoundary_length]; exact hEz)
    (hAfterTfsf_length hc3 hc4 hEz hHy) hN

theorem stepFDTD_good {Sc W0 : ℝ} {sp : ℕ} {src : ℝ → ℝ → ℝ} {q : ℕ}
    {s : SimState} {N : ℕ} (hs : GoodState s N sp) :
    GoodState (stepFDTD Sc W0 sp src q s) N sp := by
  refine ⟨stepFDTD_Ez_length hs, stepFDTD_Hy_length hs, ?_, ?_, ?_, ?_,
    hs.2.2.2.2.2.2.1, hs.2.2.2.2.2.2.2.1, hs.2.2.2.2.2.2.2.2⟩
  · rw [stepFDTD_ceze_eq]; exact hs.2.2.1
  · rw [stepFDTD_cezh_eq]; exact hs.2.2.2.1
  · rw [stepFDTD_chyh_eq]; exact hs.2.2.2.2.1
  · rw [stepFDTD_chye_eq]; exact hs.2.2.2.2.2.1

theorem stepFDTD_Hy_getD {Sc W0 : ℝ} {sp : ℕ} {src : ℝ → ℝ → ℝ} {q : ℕ}
    {s : SimState} {N : ℕ} (hs : GoodState s N sp) {i : ℕ} (hi : i < N - 1) :
    (stepFDTD Sc W0 sp src q s).Hy.getD i 0 =
      if i = sp - 1 then
        hBulk s i - Sc / (W0 * s.mu.getD (sp - 1) 0) * src 0 (q : ℝ)
      else hBulk s i := by
  obtain ⟨hEz, hHy, hc1, hc2, hc3, hc4, hN, hp1, hp2⟩ := hs
  rw [stepFDTD_Hy_eq]
  exact hAfterTfsf_getD hc3 hc4 hEz hHy hi

theorem stepFDTD_Ez_getD_zero {Sc W0 : ℝ} {sp : ℕ} {src : ℝ → ℝ → ℝ} {q : ℕ}
    {s : SimState} {N : ℕ} (hs : GoodState s N sp) :
    (stepFDTD Sc W0 sp src q s).Ez.getD 0 0 = s.Ez.getD 1 0 := by
  obtain ⟨hEz, hHy, hc1, hc2, hc3, hc4, hN, hp1, hp2⟩ := hs
  rw [stepFDTD_Ez_eq, getD_set_ne (by omega)]
  rw [eUpdate_getD_zero (e := ezBoundary s.Ez)
    (by rw [ezBoundary_length]; exact hEz) hN]
  exact ezBoundary_getD_zero (by omega)

theorem stepFDTD_Ez_getD_last {Sc W0 : ℝ} {sp : ℕ} {src : ℝ → ℝ → ℝ} {q : ℕ}
    {s : SimState} {N : ℕ} (hs : GoodState s N sp) :
    (stepFDTD Sc W0 sp src q s).Ez.getD (N - 1) 0 = s.Ez.getD (N - 2) 0 := by
  obtain ⟨hEz, hHy, hc1, hc2, hc3, hc4, hN, hp1, hp2⟩ := hs
  rw [stepFDTD_Ez_eq, getD_set_ne (by omega)]
  rw [eUpdate_getD_last hc1 hc2 (by rw [ezBoundary_length]; exact hEz)
    (hAfterTfsf_length hc3 hc4 hEz hHy) hN]
  exact ezBoundary_getD_last hEz hN

theorem stepFDTD_Ez_getD_mid {Sc W0 : ℝ} {sp : ℕ} {src : ℝ → ℝ → ℝ} {q : ℕ}
    {s : SimState} {N : ℕ} (hs : GoodState s N sp) {i : ℕ} (h5 : 1 ≤ i)
    (h6 : i ≤ N - 2) :
    (stepFDTD Sc W0 sp src q s).Ez.getD i 0 =
      if i = sp then
        eBulk s (stepFDTD Sc W0 sp src q s).Hy i +
          Sc / Real.sqrt (s.eps.getD sp 0 * s.mu.getD sp 0) *
            src (-0.5) ((q : ℝ) + 0.5)
      else eBulk s (stepFDTD Sc W0 sp src q s).Hy i := by
  obtain ⟨hEz, hHy, hc1, hc2, hc3, hc4, hN, hp1, hp2⟩ := hs
  have hmid : ∀ j, 1 ≤ j → j ≤ N - 2 →
      (eUpdate s.ceze s.cezh (ezBoundary s.Ez)
        (hAfterTfsf Sc W0 sp src q s)).getD j 0 =
      eBulk s (hAfterTfsf Sc W0 sp src q s) j := by
    intro j hj1 hj2
    rw [eUpdate_getD_mid hc1 hc2 (by rw [ezBoundary_length]; exact hEz)
      (hAfterTfsf_length hc3 hc4 hEz hHy) hN hj1 hj2]
    rw [ezBoundary_getD_mid hEz hj1 hj2 hN]
    simp only [eBulk]
  rw [stepFDTD_Ez_eq, stepFDTD_Hy_eq]
  by_cases hisp : i = sp
  · subst hisp
    rw [if_pos rfl, getD_set_self (by
      rw [eUpdate_length hc1 hc2 (by rw [ezBoundary_length]; exact hEz)
        (hAfterTfsf_length hc3 hc4 hEz hHy) hN]
      omega)]
    rw [hmid i h5 h6]
  · rw [if_neg hisp, getD_set_ne (fun hh => hisp hh.symm), hmid i h5 h6]

/-! ### The run -/

theorem runFDTD_zero {Sc W0 : ℝ} {sp : ℕ} {src : ℝ → ℝ → ℝ} {s : SimState} :
    runFDTD Sc W0 sp src 0 s = s := rfl

theorem runFDTD_succ {Sc W0 : ℝ} {sp : ℕ} {src : ℝ → ℝ → ℝ} {n : ℕ}
    {s : SimState} :
    runFDTD Sc W0 sp src (n + 1) s =
      stepFDTD Sc W0 sp src n (runFDTD Sc W0 sp src n s) := rfl

theorem runFDTD_good {Sc W0 : ℝ} {sp : ℕ} {src : ℝ → ℝ → ℝ} {s : SimState}
    {N : ℕ} (hs : GoodState s N sp) (n : ℕ) :
    GoodState (runFDTD Sc W0 sp src n s) N sp := by
  induction n with
  | zero => exact hs
  | succ n ih => rw [runFDTD_succ]; exact stepFDTD_good ih

theorem runFDTD_eps {Sc W0 : ℝ} {sp : ℕ} {src : ℝ → ℝ → ℝ} {s : SimState}
    (n : ℕ) : (runFDTD Sc W0 sp src n s).eps = s.eps := by
  induction n with
  | zero => rfl
  | succ n ih => rw [runFDTD_succ, stepFDTD_eps_eq, ih]

theorem runFDTD_mu {Sc W0 : ℝ} {sp : ℕ} {src : ℝ → ℝ → ℝ} {s : SimState}
    (n : ℕ) : (runFDTD Sc W0 sp src n s).mu = s.mu := by
  induction n with
  | zero => rfl
  | succ n ih => rw [runFDTD_succ, stepFDTD_mu_eq, ih]

theorem runFDTD_ceze {Sc W0 : ℝ} {sp : ℕ} {src : ℝ → ℝ → ℝ} {s : SimState}
    (n : ℕ) : (runFDTD Sc W0 sp src n s).ceze = s.ceze := by
  induction n with
  | zero => rfl
  | succ n ih => rw [runFDTD_succ, stepFDTD_ceze_eq, ih]

theorem runFDTD_cezh {Sc W0 : ℝ} {sp : ℕ} {src : ℝ → ℝ → ℝ} {s : SimState}
    (n : ℕ) : (runFDTD Sc W0 sp src n s).cezh = s.cezh := by
  induction n with
  | zero => rfl
  | succ n ih => rw [runFDTD_succ, stepFDTD_cezh_eq, ih]

theorem runFDTD_chyh {Sc W0 : ℝ} {sp : ℕ} {src : ℝ → ℝ → ℝ} {s : SimState}
    (n : ℕ) : (runFDTD Sc W0 sp src n s).chyh = s.chyh := by
  induction n with
  | zero => rfl
  | succ n ih => rw [runFDTD_succ, stepFDTD_chyh_eq, ih]

theorem runFDTD_chye {Sc W0 : ℝ} {sp : ℕ} {src : ℝ → ℝ → ℝ} {s : SimState}
    (n : ℕ) : (runFDTD Sc W0 sp src n s).chye = s.chye := by
  induction n with
  | zero => rfl
  | succ n ih => rw [runFDTD_succ, stepFDTD_chye_eq, ih]

/-! ### Preservation of the all-zero field state -/

theorem allZero_set {l : List ℝ} {n : ℕ} {v : ℝ} (hl : allZero l) (hv : v = 0) :
    allZero (l.set n v) := by
  intro i
  by_cases hni : n = i
  · subst hni
    by_cases hlt : n < l.length
    · rw [getD_set_self hlt, hv]
    · exact List.getD_eq_default _ _ (by rw [List.length_set]; omega)
  · rw [getD_set_ne hni]
    exact hl i

theorem allZero_append {a b : List ℝ} (ha : allZero a) (hb : allZero b) :
    allZero (a ++ b) := by
  intro i
  by_cases h1 : i < a.length
  · rw [getD_append_left h1]; exact ha i
  · by_cases h2 : i < a.length + b.length
    · rw [getD_append_right (by omega) h2]; exact hb _
    · exact List.getD_eq_default _ _ (by rw [List.length_append]; omega)

theorem allZero_take {l : List ℝ} (hl : allZero l) (n : ℕ) :
    allZero (l.take n) := by
  intro i
  by_cases h : i < n ∧ i < l.length
  · rw [getD_take h.1 h.2]; exact hl i
  · exact List.getD_eq_default _ _ (by rw [List.length_take]; omega)

theorem allZero_drop {l : List ℝ} (hl : allZero l) (n : ℕ) :
    allZero (l.drop n) := by
  intro i
  by_cases h : n + i < l.length
  · rw [getD_drop h]; exact hl _
  · exact List.getD_eq_default _ _ (by rw [List.length_drop]; omega)

theorem allZero_hUpdate {c₁ c₂ e h : List ℝ} (he : allZero e) (hh : allZero h) :
    allZero (hUpdate c₁ c₂ e h) := by
  intro i
  by_cases hlt : i < (hUpdate c₁ c₂ e h).length
  · have hlen := hlt
    simp only [hUpdate, List.length_zipWith, List.length_dropLast,
      List.length_tail] at hlen
    rw [hUpdate_getD (by omega) (by omega) (by omega) (by omega),
      hh i, he (i + 1), he i]
    ring
  · exact List.getD_eq_default _ _ (by omega)

theorem allZero_eInner {c₁ c₂ e h : List ℝ} (he : allZero e) (hh : allZero h) :
    allZero (eInner c₁ c₂ e h) := by
  intro i
  by_cases hlt : i < (eInner c₁ c₂ e h).length
  · have hlen := hlt
    simp only [eInner, List.length_zipWith, List.length_dropLast,
      List.length_tail] at hlen
    rw [eInner_getD (by omega) (by omega) (by omega) (by omega),
      he (i + 1), hh (i + 1), hh i]
    ring
  · exact List.getD_eq_default _ _ (by omega)

theorem allZero_ezBoundary {e : List ℝ} (he : allZero e) :
    allZero (ezBoundary e) := by
  unfold ezBoundary
  have h1 : allZero (e.set 0 (e.getD 1 0)) := allZero_set he (he 1)
  exact allZero_set h1 (h1 _)

theorem allZero_eUpdate {c₁ c₂ e h : List ℝ} (he : allZero e) (hh : allZero h) :
    allZero (eUpdate c₁ c₂ e h) := by
  unfold eUpdate
  exact allZero_append (allZero_append (allZero_take he 1)
    (allZero_eInner he hh)) (allZero_drop he _)

theorem allZero_hAfterTfsf {Sc W0 : ℝ} {sp : ℕ} {src : ℝ → ℝ → ℝ} {q : ℕ}
    {s : SimState} (hz : ∀ m t, src m t = 0) (he : allZero s.Ez)
    (hh : allZero s.Hy) : allZero (hAfterTfsf Sc W0 sp src q s) := by
  unfold hAfterTfsf
  have h1 : allZero (hUpdate s.chyh s.chye s.Ez s.Hy) := allZero_hUpdate he hh
  apply allZero_set h1
  rw [h1 (sp - 1), hz 0 ((q : ℕ) : ℝ)]
  ring

theorem allZero_stepFDTD {Sc W0 : ℝ} {sp : ℕ} {src : ℝ → ℝ → ℝ} {q : ℕ}
    {s : SimState} (hz : ∀ m t, src m t = 0) (he : allZero s.Ez)
    (hh : allZero s.Hy) :
    allZero (stepFDTD Sc W0 sp src q s).Ez ∧
      allZero (stepFDTD Sc W0 sp src q s).Hy := by
  have hH : allZero (hAfterTfsf Sc W0 sp src q s) := allZero_hAfterTfsf hz he hh
  have hE3 : allZero (eUpdate s.ceze s.cezh (ezBoundary s.Ez)
      (hAfterTfsf Sc W0 sp src q s)) :=
    allZero_eUpdate (allZero_ezBoundary he) hH
  constructor
  · rw [stepFDTD_Ez_eq]
    apply allZero_set hE3
    rw [hE3 sp, hz (-0.5) (((q : ℕ) : ℝ) + 0.5)]
    ring
  · rw [stepFDTD_Hy_eq]
    exact hH

theorem allZero_runFDTD {Sc W0 : ℝ} {sp : ℕ} {src : ℝ → ℝ → ℝ} {s : SimState}
    (hz : ∀ m t, src m t = 0) (he : allZero s.Ez) (hh : allZero s.Hy) (n : ℕ) :
    allZero (runFDTD Sc W0 sp src n s).Ez ∧
      allZero (runFDTD Sc W0 sp src n s).Hy := by
  induction n with
  | zero => exact ⟨he, hh⟩
  | succ n ih => rw [runFDTD_succ]; exact allZero_stepFDTD hz ih.1 ih.2

/-! ### Lengths of the concrete arrays and well-formedness of `state0` -/

theorem lossList_length : lossList.length = maxSize := by
  rw [lossList, List.length_ofFn]

theorem epsList_length : epsList.length = maxSize := by
  rw [epsList, List.length_ofFn]

theorem cezeBase_length : cezeBase.length = maxSize := by
  rw [cezeBase, List.length_map, lossList_length]

theorem cezhBase_length : cezhBase.length = maxSize := by
  rw [cezhBase, List.length_zipWith, epsList_length, lossList_length]
  exact Nat.min_self _

theorem chyhList_length : chyhList.length = maxSize := by
  rw [chyhList, List.length_map, lossList_length]

theorem chyeList_length : chyeList.length = maxSize := by
  rw [chyeList, List.length_map, lossList_length]

theorem cezeList_length : cezeList.length = maxSize := by
  rw [cezeList, List.length_set, cezeSm1, List.length_set, cezeBase_length]

theorem cezhList_length : cezhList.length = maxSize := by
  rw [cezhList, List.length_set, cezhSm1, List.length_set, cezhBase_length]

theorem state0_eps : state0.eps = epsList := by simp only [state0]

theorem state0_mu : state0.mu = muList := by simp only [state0]

theorem state0_ceze : state0.ceze = cezeList := by simp only [state0]

theorem state0_cezh : state0.cezh = cezhList := by simp only [state0]

theorem state0_chyh : state0.chyh = chyhList := by simp only [state0]

theorem state0_chye : state0.chye = chyeList := by simp only [state0]

theorem state0_Ez : state0.Ez = Ez0 := by simp only [state0]

theorem state0_Hy : state0.Hy = Hy0 := by simp only [state0]

theorem state0_probes : state0.probes = probes0 := by simp only [state0]

theorem state0_good : GoodState state0 maxSize sourcePos := by
  refine ⟨?_, ?_, ?_, ?_, ?_, ?_, ?_, ?_, ?_⟩
  · rw [state0_Ez, Ez0]; exact List.length_replicate _ _
  · rw [state0_Hy, Hy0]; exact List.length_replicate _ _
  · rw [state0_ceze]; exact cezeList_length
  · rw [state0_cezh]; exact cezhList_length
  · rw [state0_chyh]; exact chyhList_length
  · rw [state0_chye]; exact chyeList_length
  · decide
  · decide
  · decide

theorem stateW_good : GoodState stateW 4 2 := by
  exact ⟨rfl, rfl, rfl, rfl, rfl, rfl, by decide, by decide, by decide⟩

/-! ### The claims -/

/-- Claim C1: for every time step `q`, one step of the engine performs
exactly the six sub-steps in their fixed order.  The final state is
characterised sub-step by sub-step: (1) every magnetic cell carries the bulk
update `chyh[i]*Hy[i] + chye[i]*(Ez[i+1]-Ez[i])` of the pre-step values,
(2) except the cell `sourcePos - 1`, which additionally has
`Sc/(W0*mu[sourcePos-1])*src(0, q)` subtracted; (3) the boundary cells of
`Ez` take the pre-step values of their neighbours, so the boundary condition
ran before the E update; (4) every interior electric cell carries
`ceze[i]*Ez[i] + cezh[i]*(newHy[i]-newHy[i-1])` with the pre-step `Ez` and
the fully updated magnetic field, so the E bulk update ran after both H
sub-steps; (5) except the cell `sourcePos`, which additionally has
`Sc/sqrt(eps[sourcePos]*mu[sourcePos])*src(-0.5, q+0.5)` added; and (6) every
probe is notified with the final full `Ez` and `Hy` of the step. -/
theorem C1_step_order {Sc W0 : ℝ} {sp : ℕ} {src : ℝ → ℝ → ℝ} {q : ℕ}
    {s : SimState} {N : ℕ} (hs : GoodState s N sp) :
    ((stepFDTD Sc W0 sp src q s).Hy.length = N - 1 ∧
      ∀ i, i < N - 1 →
        (stepFDTD Sc W0 sp src q s).Hy.getD i 0 =
          if i = sp - 1 then
            hBulk s i - Sc / (W0 * s.mu.getD (sp - 1) 0) * src 0 (q : ℝ)
          else hBulk s i) ∧
    ((stepFDTD Sc W0 sp src q s).Ez.length = N ∧
      (stepFDTD Sc W0 sp src q s).Ez.getD 0 0 = s.Ez.getD 1 0 ∧
      (stepFDTD Sc W0 sp src q s).Ez.getD (N - 1) 0 = s.Ez.getD (N - 2) 0 ∧
      ∀ i, 1 ≤ i → i ≤ N - 2 →
        (stepFDTD Sc W0 sp src q s).Ez.getD i 0 =
          if i = sp then
            eBulk s (stepFDTD Sc W0 sp src q s).Hy i +
              Sc / Real.sqrt (s.eps.getD sp 0 * s.mu.getD sp 0) *
                src (-0.5) ((q : ℝ) + 0.5)
          else eBulk s (stepFDTD Sc W0 sp src q s).Hy i) ∧
    (stepFDTD Sc W0 sp src q s).probes =
      s.probes.map (fun p =>
        p.addData (stepFDTD Sc W0 sp src q s).Ez (stepFDTD Sc W0 sp src q s).Hy) :=
  ⟨⟨stepFDTD_Hy_length hs, fun _ hi => stepFDTD_Hy_getD hs hi⟩,
    ⟨stepFDTD_Ez_length hs, stepFDTD_Ez_getD_zero hs, stepFDTD_Ez_getD_last hs,
      fun _ h5 h6 => stepFDTD_Ez_getD_mid hs h5 h6⟩,
    stepFDTD_probes_eq⟩

/-- Witness for C1 at a closed input: the 4-cell state `stateW`, source
plane 2, zero source, step 0. -/
theorem C1_step_order_witness :
    GoodState stateW 4 2 ∧
    (((stepFDTD 1 1 2 (fun _ _ => 0) 0 stateW).Hy.length = 4 - 1 ∧
      ∀ i, i < 4 - 1 →
        (stepFDTD 1 1 2 (fun _ _ => 0) 0 stateW).Hy.getD i 0 =
          if i = 2 - 1 then
            hBulk stateW i -
              1 / (1 * stateW.mu.getD (2 - 1) 0) * (fun _ _ : ℝ => (0 : ℝ)) 0 ((0 : ℕ) : ℝ)
          else hBulk stateW i) ∧
    ((stepFDTD 1 1 2 (fun _ _ => 0) 0 stateW).Ez.length = 4 ∧
      (stepFDTD 1 1 2 (fun _ _ => 0) 0 stateW).Ez.getD 0 0 = stateW.Ez.getD 1 0 ∧
      (stepFDTD 1 1 2 (fun _ _ => 0) 0 stateW).Ez.getD (4 - 1) 0 =
        stateW.Ez.getD (4 - 2) 0 ∧
      ∀ i, 1 ≤ i → i ≤ 4 - 2 →
        (stepFDTD 1 1 2 (fun _ _ => 0) 0 stateW).Ez.getD i 0 =
          if i = 2 then
            eBulk stateW (stepFDTD 1 1 2 (fun _ _ => 0) 0 stateW).Hy i +
              1 / Real.sqrt (stateW.eps.getD 2 0 * stateW.mu.getD 2 0) *
                (fun _ _ : ℝ => (0 : ℝ)) (-0.5) (((0 : ℕ) : ℝ) + 0.5)
          else eBulk stateW (stepFDTD 1 1 2 (fun _ _ => 0) 0 stateW).Hy i) ∧
    (stepFDTD 1 1 2 (fun _ _ => 0) 0 stateW).probes =
      stateW.probes.map (fun p =>
        p.addData (stepFDTD 1 1 2 (fun _ _ => 0) 0 stateW).Ez
          (stepFDTD 1 1 2 (fun _ _ => 0) 0 stateW).Hy)) :=
  ⟨stateW_good, C1_step_order stateW_good⟩

/-- Claim C2: `getField(m, q)` returns exactly
`sin(2*pi/Nl*(q*Sc - m*sqrt(eps*mu))) * exp(-(((q - m*sqrt(eps*mu)/Sc) - d)/w)^2)`,
the formula of the spec (`getFieldSpec`), and the call is pure: two calls
with equal arguments return equal values. -/
theorem C2_getField_formula (d w Nl Sc eps mu m q : ℝ) :
    getField d w Nl Sc eps mu m q =
      Real.sin (2 * Real.pi / Nl * (q * Sc - m * Real.sqrt (eps * mu))) *
        Real.exp (-(((q - m * Real.sqrt (eps * mu) / Sc) - d) / w) ^ 2) ∧
    getField d w Nl Sc eps mu m q = getFieldSpec d w Nl Sc eps mu m q ∧
    ∀ m₂ q₂, m₂ = m → q₂ = q →
      getField d w Nl Sc eps mu m₂ q₂ = getField d w Nl Sc eps mu m q := by
  refine ⟨rfl, rfl, ?_⟩
  intro m₂ q₂ h1 h2
  rw [h1, h2]

/-- Witness for C2 at a closed input. -/
theorem C2_getField_formula_witness :
    getField 1 2 3 4 5 6 7 8 = getFieldSpec 1 2 3 4 5 6 7 8 ∧
    getField 1 2 3 4 5 6 7 8 = getField 1 2 3 4 5 6 7 8 :=
  ⟨(C2_getField_formula 1 2 3 4 5 6 7 8).2.1,
   (C2_getField_formula 1 2 3 4 5 6 7 8).2.2 7 8 rfl rfl⟩

/-- Claim C5: if the source field evaluator returns 0 for every argument pair
and `Ez`, `Hy` start identically zero, then after every number of executed
time steps both field arrays are still identically zero. -/
theorem C5_zero_preserved {Sc W0 : ℝ} {sp : ℕ} {src : ℝ → ℝ → ℝ}
    {s : SimState} (hz : ∀ m t, src m t = 0) (he : allZero s.Ez)
    (hh : allZero s.Hy) (n : ℕ) :
    allZero (runFDTD Sc W0 sp src n s).Ez ∧
      allZero (runFDTD Sc W0 sp src n s).Hy :=
  allZero_runFDTD hz he hh n

/-- Witness for C5 at a closed input: `stateW` with the zero source, after
two steps. -/
theorem C5_zero_preserved_witness :
    (∀ m t : ℝ, (fun _ _ : ℝ => (0 : ℝ)) m t = 0) ∧ allZero stateW.Ez ∧
      allZero stateW.Hy ∧
      (allZero (runFDTD 1 1 2 (fun _ _ => 0) 2 stateW).Ez ∧
        allZero (runFDTD 1 1 2 (fun _ _ => 0) 2 stateW).Hy) := by
  have hz : ∀ m t : ℝ, (fun _ _ : ℝ => (0 : ℝ)) m t = 0 := fun _ _ => rfl
  have he : allZero stateW.Ez := fun i => getD_replicate_zero 4 i
  have hh : allZero stateW.Hy := fun i => getD_replicate_zero 3 i
  exact ⟨hz, he, hh, C5_zero_preserved hz he hh 2⟩

/-- Claim C10: with an interior source position, at the end of every step
`q + 1` the boundary value `Ez[0]` equals the value `Ez[1]` had at the end of
step `q`, and `Ez[N-1]` equals the previous `Ez[N-2]`: the boundary
assignment reads pre-update neighbours and no later sub-step of the same
step writes the two boundary cells. -/
theorem C10_boundary_lag {Sc W0 : ℝ} {sp : ℕ} {src : ℝ → ℝ → ℝ} {s : SimState}
    {N : ℕ} (hs : GoodState s N sp) (q : ℕ) :
    (runFDTD Sc W0 sp src (q + 1) s).Ez.getD 0 0 =
      (runFDTD Sc W0 sp src q s).Ez.getD 1 0 ∧
    (runFDTD Sc W0 sp src (q + 1) s).Ez.getD (N - 1) 0 =
      (runFDTD Sc W0 sp src q s).Ez.getD (N - 2) 0 := by
  have h : GoodState (runFDTD Sc W0 sp src q s) N sp := runFDTD_good hs q
  rw [runFDTD_succ]
  exact ⟨stepFDTD_Ez_getD_zero h, stepFDTD_Ez_getD_last h⟩

/-- Witness for C10 at a closed input: the real configuration `state0` after
its first step. -/
theorem C10_boundary_lag_witness :
    GoodState state0 maxSize sourcePos ∧
    ((runFDTD Sc W0 sourcePos sourceField (0 + 1) state0).Ez.getD 0 0 =
      (runFDTD Sc W0 sourcePos sourceField 0 state0).Ez.getD 1 0 ∧
    (runFDTD Sc W0 sourcePos sourceField (0 + 1) state0).Ez.getD (maxSize - 1) 0 =
      (runFDTD Sc W0 sourcePos sourceField 0 state0).Ez.getD (maxSize - 2) 0) :=
  ⟨state0_good, C10_boundary_lag state0_good 0⟩

theorem lossList_getD {i : ℕ} (h : i < maxSize) : lossList.getD i 0 = lossFun i := by
  rw [lossList, getD_ofFn h]

/-- Claim C3: the update-coefficient arrays are derived once from `eps`,
`loss` and `W0` by the four stated per-cell formulas, and no operation of
the run mutates any of the four arrays after construction: any run returns
the coefficient arrays of its starting state unchanged. -/
theorem C3_coefficients_fixed :
    (∀ i, i < maxSize →
      cezeBase.getD i 0 = (1 - lossList.getD i 0) / (1 + lossList.getD i 0) ∧
      cezhBase.getD i 0 = W0 / (epsList.getD i 0 * (1 + lossList.getD i 0)) ∧
      chyhList.getD i 0 = (1 - lossList.getD i 0) / (1 + lossList.getD i 0) ∧
      chyeList.getD i 0 = 1 / (W0 * (1 + lossList.getD i 0))) ∧
    ∀ (S V : ℝ) (sp : ℕ) (src : ℝ → ℝ → ℝ) (n : ℕ) (s : SimState),
      (runFDTD S V sp src n s).ceze = s.ceze ∧
      (runFDTD S V sp src n s).cezh = s.cezh ∧
      (runFDTD S V sp src n s).chyh = s.chyh ∧
      (runFDTD S V sp src n s).chye = s.chye := by
  constructor
  · intro i hi
    have hl : i < lossList.length := by rw [lossList_length]; exact hi
    have he : i < epsList.length := by rw [epsList_length]; exact hi
    refine ⟨?_, ?_, ?_, ?_⟩
    · rw [cezeBase, getD_map hl]
    · rw [cezhBase, getD_zipWith he hl]
    · rw [chyhList, getD_map hl]
    · rw [chyeList, getD_map hl]
  · intro S V sp src n s
    exact ⟨runFDTD_ceze n, runFDTD_cezh n, runFDTD_chyh n, runFDTD_chye n⟩

/-- Witness for C3 at a closed input: cell 0 and a one-step run on `stateW`. -/
theorem C3_coefficients_fixed_witness :
    (0 < maxSize) ∧
    cezeBase.getD 0 0 = (1 - lossList.getD 0 0) / (1 + lossList.getD 0 0) ∧
    (runFDTD 1 1 2 (fun _ _ => 0) 1 stateW).ceze = stateW.ceze :=
  ⟨by decide, (C3_coefficients_fixed.1 0 (by decide)).1,
    (C3_coefficients_fixed.2 1 1 2 (fun _ _ => 0) 1 stateW).1⟩

/-- Claim C4 counterexample: the claim fails for the H coefficients.  At the
left absorbing edge cell 50, `chyh[50] = 1` (its derived value, since
`loss[50] = 0`), while the average of its two neighbours is
`((1-0.02)/(1+0.02) + 1)/2 = 50/51 ≠ 1`: the script smooths only `ceze` and
`cezh`, never `chyh` or `chye`. -/
theorem C4_counterexample :
    ¬ (chyhList.getD layer_loss_x_left 0 =
        (chyhList.getD (layer_loss_x_left - 1) 0 +
          chyhList.getD (layer_loss_x_left + 1) 0) / 2) := by
  have h : ∀ i, i < maxSize →
      chyhList.getD i 0 = (1 - lossFun i) / (1 + lossFun i) := by
    intro i hi
    have hl : i < lossList.length := by rw [lossList_length]; exact hi
    rw [chyhList, getD_map hl, lossList_getD hi]
  simp only [layer_loss_x_left]
  rw [h 50 (by decide), h 49 (by decide), h 51 (by decide)]
  norm_num [lossFun, layer_loss_x_left, layer_loss_x_right]

/-- Claim C4 amended: after construction, at each of the two absorbing-region
edge cells (50 and 950) the E coefficients `ceze` and `cezh` equal the
average of the corresponding coefficient at the two immediate neighbour
cells, while the H coefficients `chyh` and `chye` are not smoothed and keep
their per-cell derived values. -/
theorem C4_smoothing :
    cezeList.getD 50 0 = (cezeList.getD 49 0 + cezeList.getD 51 0) / 2 ∧
    cezeList.getD 950 0 = (cezeList.getD 949 0 + cezeList.getD 951 0) / 2 ∧
    cezhList.getD 50 0 = (cezhList.getD 49 0 + cezhList.getD 51 0) / 2 ∧
    cezhList.getD 950 0 = (cezhList.getD 949 0 + cezhList.getD 951 0) / 2 ∧
    chyhList.getD 50 0 = (1 - lossList.getD 50 0) / (1 + lossList.getD 50 0) ∧
    chyhList.getD 950 0 = (1 - lossList.getD 950 0) / (1 + lossList.getD 950 0) ∧
    chyeList.getD 50 0 = 1 / (W0 * (1 + lossList.getD 50 0)) ∧
    chyeList.getD 950 0 = 1 / (W0 * (1 + lossList.getD 950 0)) := by
  have hbl : (50 : ℕ) < cezeBase.length := by rw [cezeBase_length]; decide
  have hbl2 : (950 : ℕ) < (cezeBase.set 50
      ((cezeBase.getD 49 0 + cezeBase.getD 51 0) / 2)).length := by
    rw [List.length_set, cezeBase_length]; decide
  have hcl : (50 : ℕ) < cezhBase.length := by rw [cezhBase_length]; decide
  have hcl2 : (950 : ℕ) < (cezhBase.set 50
      ((cezhBase.getD 49 0 + cezhBase.getD 51 0) / 2)).length := by
    rw [List.length_set, cezhBase_length]; decide
  have hl : ∀ j : ℕ, j < maxSize → j < lossList.length := by
    intro j hj; rw [lossList_length]; exact hj
  simp only [cezeList, cezeSm1, cezhList, cezhSm1, layer_loss_x_left,
    layer_loss_x_right]
  refine ⟨?_, ?_, ?_, ?_, ?_, ?_, ?_, ?_⟩
  · rw [getD_set_ne (by decide), getD_set_self hbl,
      getD_set_ne (by decide : (950 : ℕ) ≠ 49),
      getD_set_ne (by decide : (50 : ℕ) ≠ 49),
      getD_set_ne (by decide : (950 : ℕ) ≠ 51),
      getD_set_ne (by decide : (50 : ℕ) ≠ 51)]
  · rw [getD_set_self hbl2,
      getD_set_ne (by decide : (950 : ℕ) ≠ 949),
      getD_set_ne (by decide : (950 : ℕ) ≠ 951)]
  · rw [getD_set_ne (by decide), getD_set_self hcl,
      getD_set_ne (by decide : (950 : ℕ) ≠ 49),
      getD_set_ne (by decide : (50 : ℕ) ≠ 49),
      getD_set_ne (by decide : (950 : ℕ) ≠ 51),
      getD_set_ne (by decide : (50 : ℕ) ≠ 51)]
  · rw [getD_set_self hcl2,
      getD_set_ne (by decide : (950 : ℕ) ≠ 949),
      getD_set_ne (by decide : (950 : ℕ) ≠ 951)]
  · rw [chyhList, getD_map (hl 50 (by decide))]
  · rw [chyhList, getD_map (hl 950 (by decide))]
  · rw [chyeList, getD_map (hl 50 (by decide))]
  · rw [chyeList, getD_map (hl 950 (by decide))]

/-- Claim C6: the frequency axis satisfies `f[k] = (k - size/2) * df` with
`df = 1/(size*dt)` for every bin `k < size`, and the reflection-coefficient
magnitude the script plots is the pointwise quotient of the shifted spectrum
magnitudes (meaningful only where the incident spectrum is non-zero). -/
theorem C6_axis_and_quotient :
    df = 1 / ((sizeFFT : ℝ) * dt) ∧
    (∀ k, k < sizeFFT → fAxis k = ((k : ℝ) - (sizeFFT : ℝ) / 2) * df) ∧
    ∀ (E0 E1 : List ℝ) (k : ℕ),
      reflCoeff E0 E1 k = ScatteredSpectr E0 k / FallSpectr E1 k := by
  refine ⟨rfl, ?_, fun _ _ _ => rfl⟩
  intro k hk
  rw [fAxis]
  ring

/-- Witness for C6 at a closed input: bin 0 and empty probe series. -/
theorem C6_axis_and_quotient_witness :
    (0 < sizeFFT) ∧
    fAxis 0 = (((0 : ℕ) : ℝ) - (sizeFFT : ℝ) / 2) * df ∧
    reflCoeff [] [] 0 = ScatteredSpectr [] 0 / FallSpectr [] 0 :=
  ⟨by norm_num [sizeFFT], C6_axis_and_quotient.2.1 0 (by norm_num [sizeFFT]),
    C6_axis_and_quotient.2.2 [] [] 0⟩

/-- Claim C7 counterexample: the truncation window of the incident-field
proxy is the hardcoded literal 300 of the slice `FallField[:300]`; it is not
one of the configuration parameters of the run — it equals none of them. -/
theorem C7_counterexample : (truncWindow : ℝ) ∉ configParams := by
  intro hmem
  simp only [configParams, List.mem_cons, List.not_mem_nil, or_false] at hmem
  norm_num [truncWindow, X, dx, Sc, maxTime, maxSize, sourcePos, eps1, d1,
    eps2, d2, eps3, layer_1, layer_2, layer_loss_x_left, layer_loss_x_right,
    Fmin, Fmax, A0, Amax, sizeFFT] at hmem

/-- Claim C7 amended: both probe series are zero-padded to the one fixed
transform length `2^16`, a power of two and `≥ maxTime`; the incident-proxy
input holds only the earliest 300 samples of the incident probe E series and
is exactly zero beyond them, where 300 is a hardcoded constant, not a
configuration parameter; the reflected input is the untruncated probe
series. -/
theorem C7_padding_truncation :
    (∃ k, sizeFFT = 2 ^ k) ∧ maxTime ≤ sizeFFT ∧
    (∀ (E1 : List ℝ) (i : ℕ), truncWindow ≤ i → (FallField E1).getD i 0 = 0) ∧
    (∀ (E1 : List ℝ) (i : ℕ), i < truncWindow → i < maxTime →
      (FallField E1).getD i 0 = E1.getD i 0) ∧
    (∀ (E0 : List ℝ) (k : ℕ),
      ScatteredSpectr E0 k = dftMag E0 sizeFFT (fftshiftIdx sizeFFT k)) := by
  refine ⟨⟨16, rfl⟩, by norm_num [maxTime, sizeFFT], ?_, ?_, fun _ _ => rfl⟩
  · intro E1 i hi
    have htw : truncWindow = 300 := rfl
    by_cases him : i < maxTime
    · rw [FallField, getD_ofFn him]
      simp only
      rw [if_neg (by omega)]
    · refine List.getD_eq_default _ _ ?_
      rw [FallField, List.length_ofFn]
      omega
  · intro E1 i h1 h2
    rw [FallField, getD_ofFn h2]
    simp only
    rw [if_pos h1]

/-- Witness for C7 at closed inputs: index 300 is zeroed, index 0 is copied
from the probe series. -/
theorem C7_padding_truncation_witness :
    (truncWindow ≤ 300 ∧ (FallField []).getD 300 0 = 0) ∧
    (0 < truncWindow ∧ 0 < maxTime ∧
      (FallField [(5 : ℝ)]).getD 0 0 = [(5 : ℝ)].getD 0 0) :=
  ⟨⟨by norm_num [truncWindow],
    C7_padding_truncation.2.2.1 [] 300 (by norm_num [truncWindow])⟩,
   ⟨by norm_num [truncWindow], by norm_num [maxTime],
    C7_padding_truncation.2.2.2.1 [(5 : ℝ)] 0 (by norm_num [truncWindow])
      (by norm_num [maxTime])⟩⟩

theorem runBad_probe_shape (n : ℕ) :
    ∃ p₁ p₂ : Probe, (runBad n).probes = [p₁, p₂] ∧
      p₁.E.length = n ∧ p₂.E.length = n := by
  induction n with
  | zero =>
      refine ⟨⟨75, [], []⟩, ⟨125, [], []⟩, ?_, rfl, rfl⟩
      show stateBad.probes = _
      rw [show stateBad.probes = probes0 from by simp only [stateBad]]
      simp only [probes0, probesPos, List.map]
  | succ n ih =>
      obtain ⟨p₁, p₂, hp, h1, h2⟩ := ih
      have hstep : runBad (n + 1) =
          stepFDTD Sc W0 sourcePos sourceFieldBad n (runBad n) := rfl
      refine ⟨p₁.addData (stepFDTD Sc W0 sourcePos sourceFieldBad n (runBad n)).Ez
          (stepFDTD Sc W0 sourcePos sourceFieldBad n (runBad n)).Hy,
        p₂.addData (stepFDTD Sc W0 sourcePos sourceFieldBad n (runBad n)).Ez
          (stepFDTD Sc W0 sourcePos sourceFieldBad n (runBad n)).Hy, ?_, ?_, ?_⟩
      · rw [hstep, stepFDTD_probes_eq, hp]
        rfl
      · simp only [Probe.addData, List.length_append, h1, List.length_cons,
          List.length_nil]
      · simp only [Probe.addData, List.length_append, h2, List.length_cons,
          List.length_nil]

/-- Claim C8 counterexample: with the second dielectric layer configured to
end at cell 2000 — a layer range falling outside `[0, 1000)` — no error is
detected and the run is not aborted: the out-of-range slice assignments are
silently clamped (cell 999 holds the second-layer permittivity 4.8, not the
third-layer value), and the first time step executes, appending one sample
to each probe. -/
theorem C8_counterexample :
    epsBadList.getD 999 0 = 4.8 ∧
      (runBad 1).probes.map (fun p => p.E.length) = [1, 1] := by
  constructor
  · rw [epsBadList, getD_ofFn (by norm_num [maxSize])]
    norm_num [epsBadFun, badLayer2, layer_1, maxSize, eps2]
  · obtain ⟨p₁, p₂, hp, h1, h2⟩ := runBad_probe_shape 1
    rw [hp]
    simp [h1, h2]

/-- Claim C8 amended: the script performs no configuration validation: a
layer range falling outside `[0, N)` is not detected — numpy slice
assignment silently clamps it, so the second layer fills the grid to its end
and the third layer is applied nowhere — and the time loop still executes
every requested step, appending one sample per probe per step, rather than
detecting the error and aborting before the first step. -/
theorem C8_no_validation (n : ℕ) :
    (∀ i : ℕ, epsBadList.getD i 0 =
      if i < maxSize then
        (if layer_1 ≤ i then eps2 else if maxSize / 2 ≤ i then eps1 else 1)
      else 0) ∧
    (∀ i : ℕ, epsBadList.getD i 0 ≠ eps3) ∧
    (runBad n).probes.map (fun p => p.E.length) = [n, n] := by
  have hm : maxSize = 1000 := rfl
  have hb : badLayer2 = 2000 := rfl
  have hl1 : layer_1 = 520 := by norm_num [layer_1, maxSize]
  refine ⟨?_, ?_, ?_⟩
  · intro i
    by_cases hi : i < maxSize
    · rw [epsBadList, getD_ofFn hi]
      simp only [epsBadFun]
      rw [if_pos hi]
      split_ifs <;> first | rfl | omega
    · rw [List.getD_eq_default _ _
        (by rw [epsBadList, List.length_ofFn]; omega), if_neg hi]
  · intro i
    by_cases hi : i < maxSize
    · rw [epsBadList, getD_ofFn hi]
      simp only [epsBadFun]
      split_ifs <;> first | omega | norm_num [eps1, eps2, eps3]
    · rw [List.getD_eq_default _ _
        (by rw [epsBadList, List.length_ofFn]; omega)]
      norm_num [eps3]
  · obtain ⟨p₁, p₂, hp, h1, h2⟩ := runBad_probe_shape n
    rw [hp]
    simp [h1, h2]

/-- Claim C9: at initialization and after every completed time step the
magnetic-field array has exactly one fewer element than the electric-field
array: `len(Hy) = len(Ez) - 1` always. -/
theorem C9_length_invariant (n : ℕ) :
    Hy0.length = Ez0.length - 1 ∧
    (runMain n).Hy.length = (runMain n).Ez.length - 1 := by
  constructor
  · rw [Hy0, Ez0, List.length_replicate, List.length_replicate]
  · have h : GoodState (runMain n) maxSize sourcePos := runFDTD_good state0_good n
    rw [h.1, h.2.1]

end Task04
